import Mathlib

/-!
Verification of the Conditional Permutation Importance (CPI) implementation
in `hidimstat/cpi.py`.

Shallow embedding conventions:
* numpy 2-D arrays are `List (List ℚ)` (rows of columns); 1-D arrays are
  `List ℚ`; `X.shape[1]` is the length of the first row (`ncols`).
* the predictive estimator and the imputation models are records of pure
  functions together with a `fitted` flag (sklearn's `check_is_fitted`
  inspects that flag);
* `np.random.RandomState` (external library) is modelled as a deterministic
  generator state (`Nat`) seeded once at construction; each call to
  `rng.permutation` on an array with `n` rows returns a permutation of the
  row indices `0..n-1` computed from the current state and advances the
  state by one step.  This mirrors the two facts the code relies on: the
  generator is seeded once from `random_state`, and the amount of state
  consumed by one `permutation` call depends only on the number of rows.
* `joblib.Parallel(n_jobs=...)` with the sequential semantics of
  `n_jobs=1`: the tasks run in order, threading the generator state.
* Python exceptions are `Except String`.
-/

abbrev Mat := List (List ℚ)

/-- Number of columns of a matrix, i.e. `X.shape[1]` for a rectangular array. -/
def ncols (X : Mat) : Nat := (X.headD []).length

/-- Elementwise subtraction of two matrices of equal shape (`X_j - X_j_hat`). -/
def matSub (A B : Mat) : Mat := List.zipWith (List.zipWith (· - ·)) A B

/-- Elementwise addition of two matrices of equal shape (`X_j_hat + perm`). -/
def matAdd (A B : Mat) : Mat := List.zipWith (List.zipWith (· + ·)) A B

/-- One row of `np.delete(X, idxs, axis=1)`: keep, in order, the entries whose
column index is not listed in `idxs`. -/
def npDeleteRow (row : List ℚ) (idxs : List Nat) : List ℚ :=
  ((List.range row.length).filter (fun c => decide (c ∉ idxs))).map (fun c => row.getD c 0)

/-- The numpy call `np.delete(X, idxs, axis=1)`. -/
def npDelete (X : Mat) (idxs : List Nat) : Mat := X.map (fun row => npDeleteRow row idxs)

/-- Column selection `X[:, idxs]` (in the order listed in `idxs`). -/
def getCols (X : Mat) (idxs : List Nat) : Mat :=
  X.map (fun row => idxs.map (fun c => row.getD c 0))

/-- The numpy fancy assignment `base[idxs] = vals` on one row: sequential
writes `base[idxs[k]] := vals[k]`. -/
def assignCols : List ℚ → List Nat → List ℚ → List ℚ
  | base, [], _ => base
  | base, _ :: _, [] => base
  | base, i :: is, v :: vs => assignCols (base.set i v) is vs

/-- Row-major `np.reshape` of a flat prediction to shape `(n, k)`
(`.reshape(X_j.shape)` in `joblib_predict_one_gp`). -/
def reshapeTo (flat : List ℚ) (n k : Nat) : Mat :=
  (List.range n).map (fun r => (List.range k).map (fun c => flat.getD (r * k + c) 0))

/-- Row permutation of a matrix by a list of row indices
(`rng.permutation(residual_j)` applies such a rearrangement to the rows). -/
def permuteRows (σ : List Nat) (M : Mat) : Mat := σ.map (fun i => M.getD i [])

/-- One state-advance step of the generator modelling `np.random.RandomState`
(a linear congruential step; the concrete constants are irrelevant to every
claim, which only use that the step is a deterministic function). -/
def lcgNext (s : Nat) : Nat := (1664525 * s + 1013904223) % 4294967296

/-- The permutation of `0..n-1` produced by the generator in state `st`
(`rng.permutation` on an array with `n` rows). -/
def rngPermOf (st n : Nat) : List Nat := (List.range n).rotate st

/-- The seeding `np.random.RandomState(random_state)` performed once in
`CPI.__init__`.  `None` seeds from OS entropy; the deterministic claims only
concern integer seeds, so `none` is given an arbitrary fixed state. -/
def randomStateInit : Option Nat → Nat
  | some s => s % 4294967296
  | none => 0

/-- `np.mean` of a 1-D array (meaningful for nonempty input, as in the code
where the array has `n_perm ≥ 1` entries). -/
def npMean (l : List ℚ) : ℚ := l.sum / l.length

/-- An imputation model: an sklearn-style estimator with a `fitted` flag, the
learning algorithm `fitFn` (its hyper-parameters: training data to prediction
function), and the current prediction function `predFn` (set by `fit`;
predictions are returned flattened, the caller reshapes them). -/
structure Model where
  fitted : Bool
  fitFn : Mat → Mat → (Mat → List ℚ)
  predFn : Mat → List ℚ

/-- The `sklearn.base.clone` of a model: a fresh unfitted estimator with the
same hyper-parameters. -/
def Model.clone (m : Model) : Model :=
  { fitted := false, fitFn := m.fitFn, predFn := fun _ => [] }

/-- A default model value (used only to give `List.getD` a default; every
access in the theorems is guarded by a length bound). -/
def defaultModel : Model :=
  { fitted := false, fitFn := fun _ _ => fun _ => [], predFn := fun _ => [] }

instance : Inhabited Model := ⟨defaultModel⟩

/-- The predictive estimator handed to the constructor: already-constructed
object exposing `predict` and `predict_proba` and a fitted-state flag. -/
structure PredEstimator where
  fitted : Bool
  predict : Mat → List ℚ
  predictProba : Mat → List ℚ

/-- The state held by a `CPI` instance.  `groups` is `none` until either the
constructor received a dict or `fit` filled it in; `nb_groups` is set only by
`fit` (accessing it earlier is an `AttributeError`); `rng` is the internal
generator state, seeded once in the constructor and advanced by `predict`. -/
structure CPI where
  estimator : PredEstimator
  imputation_model : Sum Model (List Model)
  n_perm : Nat
  groups : Option (List (List Nat))
  loss : List ℚ → List ℚ → ℚ
  score_proba : Bool
  random_state : Option Nat
  n_jobs : Nat
  list_imputation_mod : List Model
  rng : Nat
  nb_groups : Option Nat

/-- The constructor `CPI.__init__`: `check_is_fitted(estimator)` raises when
the supplied predictive estimator is not fitted; a list-valued
`imputation_model` is stored as `list_imputation_mod`, a single model leaves
the list empty; the generator is seeded once from `random_state`. -/
def CPI.mk? (estimator : PredEstimator) (imputation_model : Sum Model (List Model))
    (n_perm : Nat) (groups : Option (List (List Nat)))
    (loss : List ℚ → List ℚ → ℚ) (score_proba : Bool)
    (random_state : Option Nat) (n_jobs : Nat) : Except String CPI :=
  if estimator.fitted = false then
    Except.error "NotFittedError: estimator is not fitted"
  else
    Except.ok
      { estimator := estimator
        imputation_model := imputation_model
        n_perm := n_perm
        groups := groups
        loss := loss
        score_proba := score_proba
        random_state := random_state
        n_jobs := n_jobs
        list_imputation_mod :=
          match imputation_model with
          | Sum.inr l => l
          | Sum.inl _ => []
        rng := randomStateInit random_state
        nb_groups := none }

/-- The inner function `joblib_fit_one_gp` of `CPI.fit`: fit one imputation
model to predict the group-`j` columns `X[:, groups[j]]` from
`np.delete(X, groups[j], axis=1)` (the unused target `y` is kept for
fidelity to the source signature). -/
def joblib_fit_one_gp (m : Model) (X : Mat) (_y : List ℚ) (g : List (List Nat)) (j : Nat) :
    Model :=
  let X_j := getCols X (g.getD j [])
  let X_minus_j := npDelete X (g.getD j [])
  { m with fitted := true, predFn := m.fitFn X_minus_j X_j }

/-- The group dictionary and group count computed at the top of `CPI.fit`:
with `groups=None` every column becomes its own singleton group. -/
def fitGroups (s : CPI) (X : Mat) : List (List Nat) × Nat :=
  match s.groups with
  | none => ((List.range (ncols X)).map (fun j => [j]), ncols X)
  | some g => (g, g.length)

/-- The imputation-model list `CPI.fit` starts from: when the stored list is
empty (a single model was supplied) it is one `clone` of that model per
group; otherwise the stored list is used as is.  (A supplied empty list is a
degenerate input on which the source crashes later; it is outside every
documented use.) -/
def fitInitMods (s : CPI) (nb : Nat) : List Model :=
  if s.list_imputation_mod.isEmpty then
    match s.imputation_model with
    | Sum.inl m => (List.range nb).map (fun _ => Model.clone m)
    | Sum.inr l => l
  else s.list_imputation_mod

/-- The method `CPI.fit`: resolve the groups, build the per-group model list,
and fit model `j` on group `j` (the joblib map over `enumerate(...)`,
sequential semantics). -/
def CPI.fit (s : CPI) (X : Mat) (y : List ℚ) : CPI :=
  let gn := fitGroups s X
  let initMods := fitInitMods s gn.2
  { s with
    groups := some gn.1
    nb_groups := some gn.2
    list_imputation_mod :=
      (List.range initMods.length).map
        (fun j => joblib_fit_one_gp (initMods.getD j defaultModel) X y gn.1 j) }

/-- The imputation prediction `X_j_hat` of `joblib_predict_one_gp`:
`imputation_model.predict(X_minus_j).reshape(X_j.shape)`. -/
def groupXjHat (m : Model) (X : Mat) (gj : List Nat) : Mat :=
  reshapeTo (m.predFn (npDelete X gj)) X.length gj.length

/-- The residual `residual_j = X_j - X_j_hat`, computed once per group before
the permutation loop. -/
def groupResidual (m : Model) (X : Mat) (gj : List Nat) : Mat :=
  matSub (getCols X gj) (groupXjHat m X gj)

/-- Assembly of `X_perm` for one permutation round: `np.empty_like(X)` (the
uninitialised cells are given the arbitrary value `0`; every claim concerns
only the assigned cells), then `X_perm[:, non_group_ids] = X_minus_j` and
`X_perm[:, group_ids] = X_j_perm`, row by row. -/
def xPermMat (X : Mat) (gj : List Nat) (Xjp : Mat) : Mat :=
  let p := ncols X
  let nonIds := (List.range p).filter (fun c => decide (c ∉ gj))
  (List.range X.length).map (fun i =>
    assignCols
      (assignCols (List.replicate p 0) nonIds (npDeleteRow (X.getD i []) gj))
      gj (Xjp.getD i []))

/-- The perturbed design matrix of one round, starting from generator state
`st`: `X_j_perm = X_j_hat + rng.permutation(residual_j)` placed into `X`
outside of which nothing changes. -/
def cpiRoundXPerm (X : Mat) (gj : List Nat) (hat res : Mat) (st : Nat) : Mat :=
  xPermMat X gj (matAdd hat (permuteRows (rngPermOf st X.length) res))

/-- The estimator output of one permutation round (`predict_proba` when
`score_proba` else `predict`, applied to the round's `X_perm`). -/
def cpiRoundPred (s : CPI) (X : Mat) (gj : List Nat) (hat res : Mat) (st : Nat) : List ℚ :=
  if s.score_proba then s.estimator.predictProba (cpiRoundXPerm X gj hat res st)
  else s.estimator.predict (cpiRoundXPerm X gj hat res st)

/-- The `for _ in range(self.n_perm)` loop of `joblib_predict_one_gp`,
threading the generator state; `hat` and `res` were computed once before
entering the loop. -/
def cpiRounds (s : CPI) (X : Mat) (gj : List Nat) (hat res : Mat) :
    Nat → Nat → (List (List ℚ) × Nat)
  | 0, st => ([], st)
  | k + 1, st =>
      let y_pred := cpiRoundPred s X gj hat res st
      let rest := cpiRounds s X gj hat res k (lcgNext st)
      (y_pred :: rest.1, rest.2)

/-- The inner function `joblib_predict_one_gp` of `CPI.predict`: compute
`X_j`, `X_minus_j`, `X_j_hat` and `residual_j` once, then run the `n_perm`
permutation rounds. -/
def joblib_predict_one_gp (s : CPI) (m : Model) (X : Mat) (g : List (List Nat)) (j : Nat)
    (st : Nat) : List (List ℚ) × Nat :=
  let gj := g.getD j []
  let hat := groupXjHat m X gj
  let res := groupResidual m X gj
  cpiRounds s X gj hat res s.n_perm st

/-- The joblib map of `CPI.predict` over `enumerate(self.list_imputation_mod)`
with the sequential semantics of `n_jobs=1`: each group task runs in order on
the shared generator, whose state it advances. -/
def predictLoop (s : CPI) (X : Mat) (g : List (List Nat)) :
    List Model → Nat → Nat → (List (List (List ℚ)) × Nat)
  | [], _, st => ([], st)
  | m :: ms, j, st =>
      let yj := joblib_predict_one_gp s m X g j st
      let rest := predictLoop s X g ms (j + 1) yj.2
      (yj.1 :: rest.1, rest.2)

/-- The method `CPI.predict`: raise when `fit` has left no imputation models,
raise (`check_is_fitted`) when one of them is unfitted, raise (`TypeError`)
when `self.groups` is still `None`, otherwise return `np.stack(out_list)`
(the list of per-group prediction blocks) together with the advanced
generator state. -/
def CPI.predict (s : CPI) (X : Mat) : Except String (List (List (List ℚ)) × Nat) :=
  if s.list_imputation_mod.isEmpty then
    Except.error "fit must be called before predict"
  else if s.list_imputation_mod.all (fun m => m.fitted) = false then
    Except.error "NotFittedError: imputation model is not fitted"
  else
    match s.groups with
    | none => Except.error "TypeError: groups is None"
    | some g => Except.ok (predictLoop s X g s.list_imputation_mod 0 s.rng)

/-- The dictionary returned by `CPI.score`. -/
structure ScoreOut where
  loss_reference : ℚ
  loss_perm : List (List ℚ)
  importance : List ℚ

/-- The method `CPI.score`: re-check the estimator and the imputation models,
compute the reference loss on the unmodified `X`, call `self.predict`, turn
each per-group block of permuted predictions into a loss array, and take
`importance[j] = mean(loss_perm[j]) - loss_reference` for `j` in
`range(self.nb_groups)` (an `AttributeError` when `fit` never set
`nb_groups`). -/
def CPI.score (s : CPI) (X : Mat) (y : List ℚ) : Except String ScoreOut :=
  if s.estimator.fitted = false then
    Except.error "NotFittedError: estimator is not fitted"
  else if s.list_imputation_mod.isEmpty then
    Except.error "fit must be called before score"
  else if s.list_imputation_mod.all (fun m => m.fitted) = false then
    Except.error "NotFittedError: imputation model is not fitted"
  else
    let y_pred := if s.score_proba then s.estimator.predictProba X else s.estimator.predict X
    let loss_reference := s.loss y y_pred
    match s.predict X with
    | Except.error e => Except.error e
    | Except.ok yp =>
        let loss_perm := yp.1.map (fun yj => yj.map (fun ypj => s.loss y ypj))
        match s.nb_groups with
        | none => Except.error "AttributeError: nb_groups"
        | some nb =>
            Except.ok
              { loss_reference := loss_reference
                loss_perm := loss_perm
                importance :=
                  (List.range nb).map
                    (fun j => npMean (loss_perm.getD j []) - loss_reference) }

/-! Shared lemmas about the list-level numpy operations. -/

theorem getD_of_lt {α : Type} (l : List α) (i : Nat) (h : i < l.length) (d : α) :
    l.getD i d = l.get ⟨i, h⟩ := by
  rw [List.getD_eq_getElem?_getD, List.getElem?_eq_getElem h]; rfl

theorem assignCols_length (idxs : List Nat) :
    ∀ (base vals : List ℚ), (assignCols base idxs vals).length = base.length := by
  induction idxs with
  | nil => intro base vals; cases vals <;> rfl
  | cons i is ih =>
      intro base vals
      cases vals with
      | nil => rfl
      | cons v vs => rw [assignCols, ih, List.length_set]

theorem assignCols_getD_not_mem (idxs : List Nat) :
    ∀ (base vals : List ℚ) (c : Nat) (d : ℚ), c ∉ idxs →
      (assignCols base idxs vals).getD c d = base.getD c d := by
  induction idxs with
  | nil => intro base vals c d _; cases vals <;> rfl
  | cons i is ih =>
      intro base vals c d hc
      cases vals with
      | nil => rfl
      | cons v vs =>
          have hci : i ≠ c := fun h => hc (h ▸ List.mem_cons_self i is)
          have hcs : c ∉ is := fun h => hc (List.mem_cons_of_mem _ h)
          rw [assignCols, ih _ _ _ _ hcs]
          simp only [List.getD_eq_getElem?_getD, List.getElem?_set_ne hci]

theorem assignCols_getD_nodup (idxs : List Nat) :
    ∀ (base vals : List ℚ) (t : Nat), idxs.Nodup → t < idxs.length → t < vals.length →
      idxs.getD t 0 < base.length →
      (assignCols base idxs vals).getD (idxs.getD t 0) 0 = vals.getD t 0 := by
  induction idxs with
  | nil => intro base vals t _ ht; exact absurd ht (by simp)
  | cons i is ih =>
      intro base vals t hnd ht hv hlt
      cases vals with
      | nil => exact absurd hv (by simp)
      | cons v vs =>
          cases t with
          | zero =>
              rw [List.getD_cons_zero] at hlt ⊢
              rw [assignCols, assignCols_getD_not_mem is _ _ _ _ (List.nodup_cons.mp hnd).1]
              rw [List.getD_eq_getElem?_getD, List.getElem?_set_eq_of_lt v hlt]
              rfl
          | succ t' =>
              rw [List.getD_cons_succ] at hlt ⊢
              rw [assignCols, List.getD_cons_succ]
              exact ih (base.set i v) vs t' (List.nodup_cons.mp hnd).2
                (by simpa using ht) (by simpa using hv)
                (by rw [List.length_set]; exact hlt)

theorem assignCols_getD_map (idxs : List Nat) (base : List ℚ) (f : Nat → ℚ)
    (hnd : idxs.Nodup) (hlt : ∀ c ∈ idxs, c < base.length) (c : Nat) (hc : c ∈ idxs) :
    (assignCols base idxs (idxs.map f)).getD c 0 = f c := by
  obtain ⟨u, hu, huc⟩ := List.getElem_of_mem hc
  have hgd : idxs.getD u 0 = c := by
    rw [List.getD_eq_getElem?_getD, List.getElem?_eq_getElem hu, huc]; rfl
  have h1 : (assignCols base idxs (idxs.map f)).getD c 0 = (idxs.map f).getD u 0 := by
    rw [← hgd]
    exact assignCols_getD_nodup idxs base (idxs.map f) u hnd hu
      (by simpa using hu) (by rw [hgd]; exact hlt c hc)
  rw [h1, List.getD_eq_getElem?_getD, List.getElem?_map, List.getElem?_eq_getElem hu, huc]
  rfl

theorem xPermMat_row (X : Mat) (gj : List Nat) (Xjp : Mat) (i : Nat) (hi : i < X.length) :
    (xPermMat X gj Xjp).getD i [] =
      assignCols
        (assignCols (List.replicate (ncols X) 0)
          ((List.range (ncols X)).filter (fun c => decide (c ∉ gj)))
          (npDeleteRow (X.getD i []) gj))
        gj (Xjp.getD i []) := by
  rw [xPermMat]
  rw [List.getD_eq_getElem?_getD, List.getElem?_map, List.getElem?_range hi]
  rfl

theorem xPermMat_length (X : Mat) (gj : List Nat) (Xjp : Mat) :
    (xPermMat X gj Xjp).length = X.length := by
  rw [xPermMat]; simp

theorem xPermMat_frame (X : Mat) (gj : List Nat) (Xjp : Mat) (i c : Nat)
    (hi : i < X.length) (hrow : (X.getD i []).length = ncols X)
    (hc : c < ncols X) (hcg : c ∉ gj) :
    ((xPermMat X gj Xjp).getD i []).getD c 0 = (X.getD i []).getD c 0 := by
  rw [xPermMat_row X gj Xjp i hi]
  rw [assignCols_getD_not_mem gj _ _ _ _ hcg]
  have hvals : npDeleteRow (X.getD i []) gj
      = ((List.range (ncols X)).filter (fun c => decide (c ∉ gj))).map
          (fun c => (X.getD i []).getD c 0) := by
    rw [npDeleteRow, hrow]
  rw [hvals]
  refine assignCols_getD_map _ _ _ ((List.nodup_range _).filter _) ?_ c ?_
  · intro c' hc'
    have h1 := (List.mem_filter.mp hc').1
    have h2 := List.mem_range.mp h1
    simpa [List.length_replicate] using h2
  · exact List.mem_filter.mpr ⟨List.mem_range.mpr hc, by simpa using hcg⟩

theorem xPermMat_group (X : Mat) (gj : List Nat) (Xjp : Mat) (i t : Nat)
    (hi : i < X.length) (hnd : gj.Nodup) (hsub : ∀ c ∈ gj, c < ncols X)
    (ht : t < gj.length) (hlen : t < (Xjp.getD i []).length) :
    ((xPermMat X gj Xjp).getD i []).getD (gj.getD t 0) 0 = (Xjp.getD i []).getD t 0 := by
  rw [xPermMat_row X gj Xjp i hi]
  refine assignCols_getD_nodup gj _ _ t hnd ht hlen ?_
  rw [assignCols_length, List.length_replicate]
  have hmem : gj.getD t 0 ∈ gj := by
    rw [List.getD_eq_getElem?_getD, List.getElem?_eq_getElem ht]
    exact List.getElem_mem ht
  exact hsub _ hmem

theorem reshapeTo_length (flat : List ℚ) (n k : Nat) : (reshapeTo flat n k).length = n := by
  rw [reshapeTo]; simp

theorem reshapeTo_getD (flat : List ℚ) (n k i : Nat) (hi : i < n) :
    (reshapeTo flat n k).getD i [] = (List.range k).map (fun c => flat.getD (i * k + c) 0) := by
  rw [reshapeTo, List.getD_eq_getElem?_getD, List.getElem?_map, List.getElem?_range hi]
  rfl

theorem reshapeTo_row_length (flat : List ℚ) (n k i : Nat) (hi : i < n) :
    ((reshapeTo flat n k).getD i []).length = k := by
  rw [reshapeTo_getD flat n k i hi]; simp

theorem getCols_length (X : Mat) (idxs : List Nat) : (getCols X idxs).length = X.length := by
  rw [getCols]; simp

theorem getCols_getD (X : Mat) (idxs : List Nat) (i : Nat) (hi : i < X.length) :
    (getCols X idxs).getD i [] = idxs.map (fun c => (X.getD i []).getD c 0) := by
  rw [getCols, List.getD_eq_getElem?_getD, List.getElem?_map, List.getElem?_eq_getElem hi,
    getD_of_lt X i hi]
  rfl

theorem getCols_row_length (X : Mat) (idxs : List Nat) (i : Nat) (hi : i < X.length) :
    ((getCols X idxs).getD i []).length = idxs.length := by
  rw [getCols_getD X idxs i hi]; simp

theorem groupXjHat_length (m : Model) (X : Mat) (gj : List Nat) :
    (groupXjHat m X gj).length = X.length := reshapeTo_length _ _ _

theorem groupXjHat_row_length (m : Model) (X : Mat) (gj : List Nat) (i : Nat)
    (hi : i < X.length) : ((groupXjHat m X gj).getD i []).length = gj.length :=
  reshapeTo_row_length _ _ _ _ hi

theorem zipWithRow_getD (f : ℚ → ℚ → ℚ) (A B : Mat) (i : Nat)
    (hiA : i < A.length) (hiB : i < B.length) :
    (List.zipWith (List.zipWith f) A B).getD i [] =
      List.zipWith f (A.getD i []) (B.getD i []) := by
  have hlen : i < (List.zipWith (List.zipWith f) A B).length := by
    rw [List.length_zipWith]; exact lt_inf_iff.mpr ⟨hiA, hiB⟩
  rw [List.getD_eq_getElem?_getD, List.getElem?_eq_getElem hlen, List.getElem_zipWith,
    getD_of_lt A i hiA, getD_of_lt B i hiB]
  rfl

theorem zipWithEntry_getD (f : ℚ → ℚ → ℚ) (a b : List ℚ) (t : Nat)
    (hta : t < a.length) (htb : t < b.length) :
    (List.zipWith f a b).getD t 0 = f (a.getD t 0) (b.getD t 0) := by
  have hlen : t < (List.zipWith f a b).length := by
    rw [List.length_zipWith]; exact lt_inf_iff.mpr ⟨hta, htb⟩
  rw [List.getD_eq_getElem?_getD, List.getElem?_eq_getElem hlen, List.getElem_zipWith,
    getD_of_lt a t hta, getD_of_lt b t htb]
  rfl

theorem permuteRows_length (σ : List Nat) (M : Mat) : (permuteRows σ M).length = σ.length := by
  rw [permuteRows]; simp

theorem permuteRows_getD (σ : List Nat) (M : Mat) (i : Nat) (hi : i < σ.length) :
    (permuteRows σ M).getD i [] = M.getD (σ.getD i 0) [] := by
  rw [permuteRows, List.getD_eq_getElem?_getD, List.getElem?_map, List.getElem?_eq_getElem hi,
    getD_of_lt σ i hi]
  rfl

theorem rngPermOf_length (st n : Nat) : (rngPermOf st n).length = n := by
  rw [rngPermOf, List.length_rotate, List.length_range]

theorem rngPermOf_perm (st n : Nat) : (rngPermOf st n).Perm (List.range n) :=
  List.rotate_perm _ _

theorem rngPermOf_getD_lt (st n i : Nat) (hi : i < n) : (rngPermOf st n).getD i 0 < n := by
  have hlen : i < (rngPermOf st n).length := by rw [rngPermOf_length]; exact hi
  have hmem : (rngPermOf st n).getD i 0 ∈ rngPermOf st n := by
    rw [getD_of_lt _ i hlen]; exact List.get_mem _ _ _
  exact List.mem_range.mp ((rngPermOf_perm st n).mem_iff.mp hmem)

theorem groupResidual_length (m : Model) (X : Mat) (gj : List Nat) :
    (groupResidual m X gj).length = X.length := by
  rw [groupResidual, matSub, List.length_zipWith, getCols_length, groupXjHat_length]
  simp

theorem groupResidual_getD (m : Model) (X : Mat) (gj : List Nat) (i : Nat)
    (hi : i < X.length) :
    (groupResidual m X gj).getD i [] =
      List.zipWith (· - ·) ((getCols X gj).getD i []) ((groupXjHat m X gj).getD i []) := by
  rw [groupResidual, matSub]
  exact zipWithRow_getD _ _ _ i (by rw [getCols_length]; exact hi)
    (by rw [groupXjHat_length]; exact hi)

theorem groupResidual_row_length (m : Model) (X : Mat) (gj : List Nat) (i : Nat)
    (hi : i < X.length) : ((groupResidual m X gj).getD i []).length = gj.length := by
  rw [groupResidual_getD m X gj i hi, List.length_zipWith,
    getCols_row_length X gj i hi, groupXjHat_row_length m X gj i hi]
  simp

/-! Characterisation of the permutation loop and the sequential joblib map. -/

theorem cpiRounds_fst_length (s : CPI) (X : Mat) (gj : List Nat) (hat res : Mat) :
    ∀ (k st : Nat), (cpiRounds s X gj hat res k st).1.length = k := by
  intro k
  induction k with
  | zero => intro st; rfl
  | succ k ih => intro st; rw [cpiRounds]; simpa using ih (lcgNext st)

theorem cpiRounds_snd (s : CPI) (X : Mat) (gj : List Nat) (hat res : Mat) :
    ∀ (k st : Nat), (cpiRounds s X gj hat res k st).2 = lcgNext^[k] st := by
  intro k
  induction k with
  | zero => intro st; rfl
  | succ k ih =>
      intro st
      rw [cpiRounds]
      show (cpiRounds s X gj hat res k (lcgNext st)).2 = lcgNext^[k + 1] st
      rw [ih (lcgNext st), Function.iterate_succ_apply]

theorem cpiRounds_getD (s : CPI) (X : Mat) (gj : List Nat) (hat res : Mat) :
    ∀ (k st r : Nat), r < k →
      (cpiRounds s X gj hat res k st).1.getD r [] =
        cpiRoundPred s X gj hat res (lcgNext^[r] st) := by
  intro k
  induction k with
  | zero => intro st r hr; exact absurd hr (by omega)
  | succ k ih =>
      intro st r hr
      rw [cpiRounds]
      cases r with
      | zero => simp
      | succ r' =>
          show (cpiRounds s X gj hat res k (lcgNext st)).1.getD r' [] = _
          rw [ih (lcgNext st) r' (by omega), Function.iterate_succ_apply]

theorem joblib_predict_one_gp_snd (s : CPI) (m : Model) (X : Mat) (g : List (List Nat))
    (j st : Nat) : (joblib_predict_one_gp s m X g j st).2 = lcgNext^[s.n_perm] st := by
  rw [joblib_predict_one_gp]
  exact cpiRounds_snd _ _ _ _ _ _ _

theorem predictLoop_fst_length (s : CPI) (X : Mat) (g : List (List Nat)) :
    ∀ (ms : List Model) (j0 st : Nat), (predictLoop s X g ms j0 st).1.length = ms.length := by
  intro ms
  induction ms with
  | nil => intro j0 st; rfl
  | cons m ms ih => intro j0 st; rw [predictLoop]; simpa using ih (j0 + 1) _

theorem predictLoop_getD (s : CPI) (X : Mat) (g : List (List Nat)) :
    ∀ (ms : List Model) (i j0 st : Nat), i < ms.length →
      (predictLoop s X g ms j0 st).1.getD i [] =
        (joblib_predict_one_gp s (ms.getD i defaultModel) X g (j0 + i)
          (lcgNext^[s.n_perm * i] st)).1 := by
  intro ms
  induction ms with
  | nil => intro i j0 st hi; exact absurd hi (by simp)
  | cons m ms ih =>
      intro i j0 st hi
      rw [predictLoop]
      cases i with
      | zero => simp
      | succ i' =>
          show (predictLoop s X g ms (j0 + 1) _).1.getD i' [] = _
          rw [ih i' (j0 + 1) _ (by simpa using hi), joblib_predict_one_gp_snd]
          have harg1 : j0 + 1 + i' = j0 + (i' + 1) := by omega
          have harg2 : lcgNext^[s.n_perm * i'] (lcgNext^[s.n_perm] st)
              = lcgNext^[s.n_perm * (i' + 1)] st := by
            rw [← Function.iterate_add_apply, Nat.mul_succ]
          rw [harg1, harg2, List.getD_cons_succ]

theorem predict_ok (s : CPI) (X : Mat) (g : List (List Nat))
    (hne : s.list_imputation_mod.isEmpty = false)
    (hall : s.list_imputation_mod.all (fun m => m.fitted) = true)
    (hg : s.groups = some g) :
    s.predict X = Except.ok (predictLoop s X g s.list_imputation_mod 0 s.rng) := by
  simp [CPI.predict, hne, hall, hg]

theorem predict_ok_elim (s : CPI) (X : Mat) (o : List (List (List ℚ))) (st2 : Nat)
    (h : s.predict X = Except.ok (o, st2)) :
    ∃ g, s.groups = some g ∧ o = (predictLoop s X g s.list_imputation_mod 0 s.rng).1 := by
  rw [CPI.predict] at h
  split at h
  · exact absurd h (by simp)
  · split at h
    · exact absurd h (by simp)
    · split at h
      · exact absurd h (by simp)
      · rename_i g hg
        refine ⟨g, hg, ?_⟩
        injection h with h3
        rw [h3]

theorem score_ok (s : CPI) (X : Mat) (y : List ℚ) (g : List (List Nat)) (nb : Nat)
    (hest : s.estimator.fitted = true)
    (hne : s.list_imputation_mod.isEmpty = false)
    (hall : s.list_imputation_mod.all (fun m => m.fitted) = true)
    (hg : s.groups = some g) (hnb : s.nb_groups = some nb) :
    s.score X y =
      Except.ok
        { loss_reference :=
            s.loss y
              (if s.score_proba then s.estimator.predictProba X else s.estimator.predict X)
          loss_perm :=
            (predictLoop s X g s.list_imputation_mod 0 s.rng).1.map
              (fun yj => yj.map (fun ypj => s.loss y ypj))
          importance :=
            (List.range nb).map
              (fun j =>
                npMean
                  (((predictLoop s X g s.list_imputation_mod 0 s.rng).1.map
                      (fun yj => yj.map (fun ypj => s.loss y ypj))).getD j []) -
                s.loss y
                  (if s.score_proba then s.estimator.predictProba X
                   else s.estimator.predict X)) } := by
  rw [CPI.score, predict_ok s X g hne hall hg]
  simp [hest, hne, hall, hnb]

theorem fit_list_length (s : CPI) (X : Mat) (y : List ℚ) :
    (s.fit X y).list_imputation_mod.length = (fitInitMods s (fitGroups s X).2).length := by
  rw [CPI.fit]; simp

theorem fit_list_getD (s : CPI) (X : Mat) (y : List ℚ) (j : Nat)
    (hj : j < (fitInitMods s (fitGroups s X).2).length) :
    (s.fit X y).list_imputation_mod.getD j defaultModel =
      joblib_fit_one_gp ((fitInitMods s (fitGroups s X).2).getD j defaultModel) X y
        (fitGroups s X).1 j := by
  show ((List.range (fitInitMods s (fitGroups s X).2).length).map
      (fun j => joblib_fit_one_gp ((fitInitMods s (fitGroups s X).2).getD j defaultModel) X y
        (fitGroups s X).1 j)).getD j defaultModel = _
  rw [List.getD_eq_getElem?_getD, List.getElem?_map, List.getElem?_range hj]
  rfl

theorem cpiRoundPred_congr (s1 s2 : CPI) (X : Mat) (gj : List Nat) (hat res : Mat) (st : Nat)
    (he : s1.estimator = s2.estimator) (hsp : s1.score_proba = s2.score_proba) :
    cpiRoundPred s1 X gj hat res st = cpiRoundPred s2 X gj hat res st := by
  rw [cpiRoundPred, cpiRoundPred, hsp, he]

theorem cpiRounds_congr (s1 s2 : CPI) (X : Mat) (gj : List Nat) (hat res : Mat)
    (he : s1.estimator = s2.estimator) (hsp : s1.score_proba = s2.score_proba) :
    ∀ (k st : Nat), cpiRounds s1 X gj hat res k st = cpiRounds s2 X gj hat res k st := by
  intro k
  induction k with
  | zero => intro st; rfl
  | succ k ih =>
      intro st
      rw [cpiRounds, cpiRounds, cpiRoundPred_congr s1 s2 X gj hat res st he hsp, ih (lcgNext st)]

theorem joblib_predict_one_gp_congr (s1 s2 : CPI) (m : Model) (X : Mat)
    (g : List (List Nat)) (j st : Nat)
    (he : s1.estimator = s2.estimator) (hn : s1.n_perm = s2.n_perm)
    (hsp : s1.score_proba = s2.score_proba) :
    joblib_predict_one_gp s1 m X g j st = joblib_predict_one_gp s2 m X g j st := by
  rw [joblib_predict_one_gp, joblib_predict_one_gp, hn,
    cpiRounds_congr s1 s2 X _ _ _ he hsp]

theorem predict_entry (s : CPI) (X : Mat) (g : List (List Nat)) (j r : Nat)
    (hg : s.groups = some g) (hj : j < s.list_imputation_mod.length) (hr : r < s.n_perm)
    (o : List (List (List ℚ))) (st2 : Nat) (hok : s.predict X = Except.ok (o, st2)) :
    (o.getD j []).getD r [] =
      cpiRoundPred s X (g.getD j [])
        (groupXjHat (s.list_imputation_mod.getD j defaultModel) X (g.getD j []))
        (groupResidual (s.list_imputation_mod.getD j defaultModel) X (g.getD j []))
        (lcgNext^[s.n_perm * j + r] s.rng) := by
  obtain ⟨g0, hg0, ho⟩ := predict_ok_elim s X o st2 hok
  have hgg : g0 = g := by rw [hg] at hg0; injection hg0 with h; rw [h]
  rw [ho, hgg] at *
  rw [predictLoop_getD s X g s.list_imputation_mod j 0 s.rng hj]
  rw [joblib_predict_one_gp]
  rw [cpiRounds_getD s X _ _ _ s.n_perm _ r hr]
  rw [Nat.zero_add, ← Function.iterate_add_apply, Nat.add_comm r (s.n_perm * j)]

/-- Discriminator for the embedding of Python exceptions: `true` exactly when
the call raised. -/
def isError {α : Type} (e : Except String α) : Bool :=
  match e with
  | Except.error _ => true
  | Except.ok _ => false

/-! Concrete collaborator objects and instances, used to witness the
hypotheses of the theorems below. -/

def exEstimator : PredEstimator :=
  { fitted := true
    predict := fun X => X.map (fun row => row.sum)
    predictProba := fun X => X.map (fun row => row.sum) }

def exUnfitEstimator : PredEstimator :=
  { fitted := false
    predict := fun _ => []
    predictProba := fun _ => [] }

def exImpModel : Model :=
  { fitted := false
    fitFn := fun _ _ => fun Xnew => Xnew.map (fun _ => 0)
    predFn := fun _ => [] }

def exFittedImpModel : Model :=
  { fitted := true
    fitFn := fun _ _ => fun Xnew => Xnew.map (fun _ => 0)
    predFn := fun Xnew => Xnew.map (fun _ => 0) }

def exLoss : List ℚ → List ℚ → ℚ :=
  fun yt yp => (List.zipWith (fun a b => (a - b) * (a - b)) yt yp).sum

def exX : Mat := [[1, 2], [3, 4]]

def exY : List ℚ := [1, 2]

/-- A CPI instance exactly as produced by the constructor from a fitted
estimator, a list holding one already fitted imputation model, an explicit
group dict and seed 0; `fit` has not been called (`nb_groups` unset). -/
def cexCPI : CPI :=
  { estimator := exEstimator
    imputation_model := Sum.inr [exFittedImpModel]
    n_perm := 1
    groups := some [[0]]
    loss := exLoss
    score_proba := false
    random_state := some 0
    n_jobs := 1
    list_imputation_mod := [exFittedImpModel]
    rng := randomStateInit (some 0)
    nb_groups := none }

/-- The same constructor arguments with a single (unfitted) imputation model
instead of a list. -/
def cexSingle : CPI :=
  { cexCPI with imputation_model := Sum.inl exImpModel, list_imputation_mod := [] }

/-- A constructor-fresh instance with `groups=None`. -/
def cexNoGroups : CPI :=
  { cexCPI with groups := none }

/-- C9: when the constructor was given `groups=None`, `CPI.fit` assigns every
feature its own singleton group: the number of groups equals the number of
columns of `X`, and group `j` contains exactly column index `j`. -/
theorem cpi_fit_default_singleton_groups (s : CPI) (X : Mat) (y : List ℚ)
    (hg : s.groups = none) :
    (s.fit X y).nb_groups = some (ncols X) ∧
    ∃ gl, (s.fit X y).groups = some gl ∧ gl.length = ncols X ∧
      ∀ j, j < ncols X → gl.getD j [] = [j] := by
  have hfg : fitGroups s X = ((List.range (ncols X)).map (fun j => [j]), ncols X) := by
    rw [fitGroups, hg]
  constructor
  · show some (fitGroups s X).2 = some (ncols X)
    rw [hfg]
  · refine ⟨(List.range (ncols X)).map (fun j => [j]), ?_, by simp, ?_⟩
    · show some (fitGroups s X).1 = _
      rw [hfg]
    · intro j hj
      rw [List.getD_eq_getElem?_getD, List.getElem?_map, List.getElem?_range hj]
      rfl

/-- Witness for C9 at a concrete instance. -/
theorem cpi_fit_default_singleton_groups_witness :
    (cexNoGroups.fit exX exY).nb_groups = some (ncols exX) ∧
    ∃ gl, (cexNoGroups.fit exX exY).groups = some gl ∧ gl.length = ncols exX ∧
      ∀ j, j < ncols exX → gl.getD j [] = [j] :=
  cpi_fit_default_singleton_groups cexNoGroups exX exY rfl

/-- C2: for every group `j`, `CPI.fit` trains the `j`-th imputation model to
predict the group-`j` columns `X[:, groups[j]]` from the matrix
`np.delete(X, groups[j], axis=1)`, and returns `self` carrying one fitted
imputation model per group (under the documented precondition that a
supplied model list has one entry per group). -/
theorem cpi_fit_trains_each_group (s : CPI) (X : Mat) (y : List ℚ)
    (g : List (List Nat)) (nb : Nat) (hfg : fitGroups s X = (g, nb))
    (hlen : (fitInitMods s nb).length = nb) :
    (s.fit X y).estimator = s.estimator ∧
    (s.fit X y).list_imputation_mod.length = nb ∧
    ∀ j, j < nb →
      ((s.fit X y).list_imputation_mod.getD j defaultModel).fitted = true ∧
      ((s.fit X y).list_imputation_mod.getD j defaultModel).predFn =
        ((fitInitMods s nb).getD j defaultModel).fitFn
          (npDelete X (g.getD j [])) (getCols X (g.getD j [])) := by
  have h2 : (fitGroups s X).2 = nb := by rw [hfg]
  have h1 : (fitGroups s X).1 = g := by rw [hfg]
  refine ⟨rfl, ?_, ?_⟩
  · rw [fit_list_length, h2, hlen]
  · intro j hj
    have hj2 : j < (fitInitMods s (fitGroups s X).2).length := by
      rw [h2, hlen]; exact hj
    rw [fit_list_getD s X y j hj2, h2, h1]
    exact ⟨rfl, rfl⟩

/-- Witness for C2 at a concrete instance. -/
theorem cpi_fit_trains_each_group_witness :
    (cexCPI.fit exX exY).estimator = cexCPI.estimator ∧
    (cexCPI.fit exX exY).list_imputation_mod.length = 1 ∧
    ∀ j, j < 1 →
      ((cexCPI.fit exX exY).list_imputation_mod.getD j defaultModel).fitted = true ∧
      ((cexCPI.fit exX exY).list_imputation_mod.getD j defaultModel).predFn =
        ((fitInitMods cexCPI 1).getD j defaultModel).fitFn
          (npDelete exX ([[0]].getD j [])) (getCols exX ([[0]].getD j [])) :=
  cpi_fit_trains_each_group cexCPI exX exY [[0]] 1 rfl rfl

/-- C7: a single supplied imputation model is cloned once per covariate group
before fitting (the clones are unfitted and carry the original's learning
algorithm); a supplied list is used exactly as given, with no cloning; `fit`
then fits these initial models group by group. -/
theorem cpi_fit_clone_policy (s : CPI) (X : Mat) (y : List ℚ) :
    (∀ m0, s.imputation_model = Sum.inl m0 → s.list_imputation_mod = [] →
      fitInitMods s (fitGroups s X).2
        = (List.range (fitGroups s X).2).map (fun _ => Model.clone m0) ∧
      ∀ mm ∈ fitInitMods s (fitGroups s X).2, mm.fitted = false ∧ mm.fitFn = m0.fitFn) ∧
    (∀ l, s.imputation_model = Sum.inr l → s.list_imputation_mod = l → l ≠ [] →
      fitInitMods s (fitGroups s X).2 = l) ∧
    (s.fit X y).list_imputation_mod =
      (List.range (fitInitMods s (fitGroups s X).2).length).map
        (fun j => joblib_fit_one_gp ((fitInitMods s (fitGroups s X).2).getD j defaultModel)
          X y (fitGroups s X).1 j) := by
  refine ⟨?_, ?_, rfl⟩
  · intro m0 hm hl
    have he : fitInitMods s (fitGroups s X).2
        = (List.range (fitGroups s X).2).map (fun _ => Model.clone m0) := by
      rw [fitInitMods, hl, hm]
      simp
    refine ⟨he, ?_⟩
    intro mm hmm
    rw [he] at hmm
    obtain ⟨j, _, hjm⟩ := List.mem_map.mp hmm
    rw [← hjm]
    exact ⟨rfl, rfl⟩
  · intro l hm hl hne
    rw [fitInitMods, hl]
    have hemp : l.isEmpty = false := by
      cases l with
      | nil => exact absurd rfl hne
      | cons a as => rfl
    rw [hemp]
    simp

/-- Witness for C7 at concrete instances: the single-model case clones, the
list case does not. -/
theorem cpi_fit_clone_policy_witness :
    fitInitMods cexSingle (fitGroups cexSingle exX).2
      = (List.range (fitGroups cexSingle exX).2).map (fun _ => Model.clone exImpModel) ∧
    fitInitMods cexCPI (fitGroups cexCPI exX).2 = [exFittedImpModel] :=
  ⟨((cpi_fit_clone_policy cexSingle exX exY).1 exImpModel rfl rfl).1,
   (cpi_fit_clone_policy cexCPI exX exY).2.1 [exFittedImpModel] rfl rfl (by simp)⟩

/-- C10: two CPI instances freshly constructed with identical arguments and
the same fixed integer seed (the internal generator is seeded once, in the
constructor) produce equal `score` outputs on the same `X`, `y`; `n_jobs = 1`
is the embedding's sequential semantics, and estimator, imputation models and
loss are pure functions, hence deterministic. -/
theorem cpi_score_deterministic (est : PredEstimator) (imp : Sum Model (List Model))
    (np : Nat) (g : Option (List (List Nat))) (lo : List ℚ → List ℚ → ℚ) (sp : Bool)
    (seed : Nat) (X : Mat) (y : List ℚ) (s1 s2 : CPI)
    (h1 : CPI.mk? est imp np g lo sp (some seed) 1 = Except.ok s1)
    (h2 : CPI.mk? est imp np g lo sp (some seed) 1 = Except.ok s2) :
    (s1.fit X y).score X y = (s2.fit X y).score X y := by
  have h := h1.symm.trans h2
  injection h with h3
  rw [h3]

/-- Witness for C10 at a concrete construction. -/
theorem cpi_score_deterministic_witness :
    (cexCPI.fit exX exY).score exX exY = (cexCPI.fit exX exY).score exX exY :=
  cpi_score_deterministic exEstimator (Sum.inr [exFittedImpModel]) 1 (some [[0]])
    exLoss false 0 exX exY cexCPI cexCPI rfl rfl

/-- A constructor-fresh instance with a single model and therefore an empty
imputation-model list (no `fit` call yet). -/
def cexEmptyList : CPI :=
  { cexCPI with imputation_model := Sum.inl exImpModel, list_imputation_mod := [] }

/-- C5 (amended): the constructor raises when the supplied predictive
estimator is not fitted; `predict` and `score` raise when the
imputation-model list is empty or contains an unfitted model — in particular
whenever `fit` was not called and no fitted models were supplied at
construction.  (They do not detect a missing `fit` call itself: see the
counterexample.) -/
theorem cpi_precondition_errors :
    (∀ (est : PredEstimator) (imp : Sum Model (List Model)) (np : Nat)
        (g : Option (List (List Nat))) (lo : List ℚ → List ℚ → ℚ) (sp : Bool)
        (rs : Option Nat) (nj : Nat), est.fitted = false →
      isError (CPI.mk? est imp np g lo sp rs nj) = true) ∧
    (∀ (s : CPI) (X : Mat) (y : List ℚ),
      (s.list_imputation_mod = [] ∨ ∃ m ∈ s.list_imputation_mod, m.fitted = false) →
      isError (s.predict X) = true ∧ isError (s.score X y) = true) := by
  constructor
  · intro est imp np g lo sp rs nj h
    rw [CPI.mk?.eq_def, if_pos h]
    rfl
  · intro s X y h
    have hcases : s.list_imputation_mod.isEmpty = true ∨
        s.list_imputation_mod.all (fun m => m.fitted) = false := by
      cases h with
      | inl h0 => left; rw [h0]; rfl
      | inr h0 =>
          right
          obtain ⟨m, hm, hf⟩ := h0
          rw [← Bool.not_eq_true]
          intro hall
          rw [List.all_eq_true] at hall
          rw [hall m hm] at hf
          exact Bool.noConfusion hf
    have hpred : isError (s.predict X) = true := by
      by_cases hE : s.list_imputation_mod.isEmpty = true
      · rw [CPI.predict, if_pos hE]; rfl
      · have hA : s.list_imputation_mod.all (fun m => m.fitted) = false := by
          cases hcases with
          | inl h0 => exact absurd h0 hE
          | inr h0 => exact h0
        rw [CPI.predict, if_neg hE, if_pos hA]
        rfl
    refine ⟨hpred, ?_⟩
    by_cases hEF : s.estimator.fitted = false
    · rw [CPI.score, if_pos hEF]; rfl
    · by_cases hE : s.list_imputation_mod.isEmpty = true
      · rw [CPI.score, if_neg hEF, if_pos hE]; rfl
      · have hA : s.list_imputation_mod.all (fun m => m.fitted) = false := by
          cases hcases with
          | inl h0 => exact absurd h0 hE
          | inr h0 => exact h0
        rw [CPI.score, if_neg hEF, if_neg hE, if_pos hA]
        rfl

/-- Witness for the amended C5: an unfitted estimator makes the constructor
raise, and an instance with an empty imputation-model list makes `predict`
and `score` raise. -/
theorem cpi_precondition_errors_witness :
    isError (CPI.mk? exUnfitEstimator (Sum.inl exImpModel) 1 none exLoss false none 1)
      = true ∧
    isError (cexEmptyList.predict exX) = true ∧
    isError (cexEmptyList.score exX exY) = true := by
  refine ⟨cpi_precondition_errors.1 exUnfitEstimator (Sum.inl exImpModel) 1 none exLoss
    false none 1 rfl, ?_, ?_⟩
  · exact (cpi_precondition_errors.2 cexEmptyList exX exY (Or.inl rfl)).1
  · exact (cpi_precondition_errors.2 cexEmptyList exX exY (Or.inl rfl)).2

/-- C5 counterexample: `cexCPI` comes out of the constructor with a list of
already fitted imputation models and an explicit group dict; `CPI.fit` has
never been called on it (`nb_groups` is still unset), yet `predict` raises
nothing — contradicting the claim that `predict` raises whenever `CPI.fit`
has not produced the fitted imputation models. -/
theorem cpi_predict_without_fit_no_raise :
    CPI.mk? exEstimator (Sum.inr [exFittedImpModel]) 1 (some [[0]]) exLoss false
      (some 0) 1 = Except.ok cexCPI ∧
    cexCPI.nb_groups = none ∧
    isError (cexCPI.predict exX) = false := by
  exact ⟨rfl, rfl, rfl⟩

/-- C6: the per-group tasks of `CPI.predict` do not interfere: the block of
permuted predictions returned for group `j` is unchanged when any other
group's imputation model changes (the generator state consumed by each task
is advanced by exactly `n_perm` steps per preceding task, independent of the
other tasks' data), for two instances sharing estimator, `n_perm`,
`score_proba`, generator state and groups. -/
theorem cpi_predict_group_noninterference (s1 s2 : CPI) (X : Mat) (g : List (List Nat))
    (he : s1.estimator = s2.estimator) (hn : s1.n_perm = s2.n_perm)
    (hsp : s1.score_proba = s2.score_proba) (hr : s1.rng = s2.rng)
    (hg1 : s1.groups = some g) (hg2 : s2.groups = some g) (j : Nat)
    (hj1 : j < s1.list_imputation_mod.length) (hj2 : j < s2.list_imputation_mod.length)
    (hm : s1.list_imputation_mod.getD j defaultModel
        = s2.list_imputation_mod.getD j defaultModel)
    (o1 o2 : List (List (List ℚ))) (r1 r2 : Nat)
    (h1 : s1.predict X = Except.ok (o1, r1)) (h2 : s2.predict X = Except.ok (o2, r2)) :
    o1.getD j [] = o2.getD j [] := by
  obtain ⟨g1, hg1e, ho1⟩ := predict_ok_elim s1 X o1 r1 h1
  obtain ⟨g2, hg2e, ho2⟩ := predict_ok_elim s2 X o2 r2 h2
  have hgg1 : g1 = g := by rw [hg1] at hg1e; injection hg1e with h; rw [h]
  have hgg2 : g2 = g := by rw [hg2] at hg2e; injection hg2e with h; rw [h]
  rw [ho1, hgg1, ho2, hgg2]
  rw [predictLoop_getD s1 X g s1.list_imputation_mod j 0 s1.rng hj1]
  rw [predictLoop_getD s2 X g s2.list_imputation_mod j 0 s2.rng hj2]
  rw [hm, hr, hn]
  exact congrArg Prod.fst
    (joblib_predict_one_gp_congr s1 s2 (s2.list_imputation_mod.getD j defaultModel)
      X g (0 + j) (lcgNext^[s2.n_perm * j] s2.rng) he hn hsp)

/-- The imputation model of group `j` held by a fitted instance. -/
def cpiGroupModel (s : CPI) (j : Nat) : Model := s.list_imputation_mod.getD j defaultModel

/-- The generator state at the start of round `r` of group `j` in
`CPI.predict`: every earlier task consumed exactly `n_perm` one-step draws,
plus the `r` draws of the earlier rounds of group `j` itself. -/
def cpiRoundState (s : CPI) (j r : Nat) : Nat := lcgNext^[s.n_perm * j + r] s.rng

/-- A second fitted imputation model, used to vary one group's model. -/
def exImpModelB : Model :=
  { fitted := true
    fitFn := fun _ _ => fun Xnew => Xnew.map (fun _ => 1)
    predFn := fun Xnew => Xnew.map (fun _ => 1) }

/-- Constructor-produced instance with two singleton groups and two fitted
imputation models. -/
def cexTwoA : CPI :=
  { cexCPI with
    groups := some [[0], [1]]
    imputation_model := Sum.inr [exFittedImpModel, exFittedImpModel]
    list_imputation_mod := [exFittedImpModel, exFittedImpModel] }

/-- Same as `cexTwoA` except that group 0's imputation model differs. -/
def cexTwoB : CPI :=
  { cexTwoA with
    imputation_model := Sum.inr [exImpModelB, exFittedImpModel]
    list_imputation_mod := [exImpModelB, exFittedImpModel] }

/-- Witness for C6: changing group 0's imputation model leaves group 1's
block of permuted predictions unchanged. -/
theorem cpi_predict_group_noninterference_witness :
    (predictLoop cexTwoA exX [[0], [1]] cexTwoA.list_imputation_mod 0 cexTwoA.rng).1.getD 1 []
      = (predictLoop cexTwoB exX [[0], [1]] cexTwoB.list_imputation_mod 0
          cexTwoB.rng).1.getD 1 [] :=
  cpi_predict_group_noninterference cexTwoA cexTwoB exX [[0], [1]] rfl rfl rfl rfl rfl rfl 1
    (by decide) (by decide) rfl _ _ _ _
    (predict_ok cexTwoA exX [[0], [1]] rfl rfl rfl)
    (predict_ok cexTwoB exX [[0], [1]] rfl rfl rfl)

/-- C8: `CPI.predict` returns the stack of per-group blocks: one block per
group, each block holding the `n_perm` estimator outputs (via `predict_proba`
when `score_proba` else `predict`) on the round's perturbed design matrix. -/
theorem cpi_predict_output_shape (s : CPI) (X : Mat) (g : List (List Nat)) (nb : Nat)
    (hne : s.list_imputation_mod.isEmpty = false)
    (hall : s.list_imputation_mod.all (fun m => m.fitted) = true)
    (hg : s.groups = some g) (_hnb : s.nb_groups = some nb)
    (hlen : s.list_imputation_mod.length = nb) :
    ∃ o st2, s.predict X = Except.ok (o, st2) ∧ o.length = nb ∧
      (∀ j, j < nb → (o.getD j []).length = s.n_perm) ∧
      ∀ j r, j < nb → r < s.n_perm →
        (o.getD j []).getD r [] =
          (if s.score_proba then s.estimator.predictProba else s.estimator.predict)
            (cpiRoundXPerm X (g.getD j [])
              (groupXjHat (cpiGroupModel s j) X (g.getD j []))
              (groupResidual (cpiGroupModel s j) X (g.getD j []))
              (cpiRoundState s j r)) := by
  refine ⟨(predictLoop s X g s.list_imputation_mod 0 s.rng).1,
          (predictLoop s X g s.list_imputation_mod 0 s.rng).2,
          predict_ok s X g hne hall hg, ?_, ?_, ?_⟩
  · rw [predictLoop_fst_length, hlen]
  · intro j hj
    have hj2 : j < s.list_imputation_mod.length := by rw [hlen]; exact hj
    rw [predictLoop_getD s X g _ j 0 s.rng hj2, joblib_predict_one_gp, cpiRounds_fst_length]
  · intro j r hj hr
    have hj2 : j < s.list_imputation_mod.length := by rw [hlen]; exact hj
    have hE := predict_entry s X g j r hg hj2 hr
      (predictLoop s X g s.list_imputation_mod 0 s.rng).1
      (predictLoop s X g s.list_imputation_mod 0 s.rng).2
      (predict_ok s X g hne hall hg)
    rw [hE]
    by_cases hsp : s.score_proba = true <;>
      simp [cpiRoundPred, cpiGroupModel, cpiRoundState, hsp]

/-- The instance `cexCPI` after `fit` on the example data: fully fitted. -/
def wS : CPI := cexCPI.fit exX exY

/-- Witness for C8 at the fitted concrete instance. -/
theorem cpi_predict_output_shape_witness :
    ∃ o st2, wS.predict exX = Except.ok (o, st2) ∧ o.length = 1 ∧
      (∀ j, j < 1 → (o.getD j []).length = wS.n_perm) ∧
      ∀ j r, j < 1 → r < wS.n_perm →
        (o.getD j []).getD r [] =
          (if wS.score_proba then wS.estimator.predictProba else wS.estimator.predict)
            (cpiRoundXPerm exX ([[0]].getD j [])
              (groupXjHat (cpiGroupModel wS j) exX ([[0]].getD j []))
              (groupResidual (cpiGroupModel wS j) exX ([[0]].getD j []))
              (cpiRoundState wS j r)) :=
  cpi_predict_output_shape wS exX [[0]] 1 rfl rfl rfl rfl rfl

theorem cpiRoundXPerm_group_entry (X : Mat) (gj : List Nat) (m : Model) (st : Nat)
    (i t : Nat) (hi : i < X.length) (ht : t < gj.length)
    (hnd : gj.Nodup) (hsub : ∀ c ∈ gj, c < ncols X) :
    ((cpiRoundXPerm X gj (groupXjHat m X gj) (groupResidual m X gj) st).getD i []).getD
        (gj.getD t 0) 0
      = ((groupXjHat m X gj).getD i []).getD t 0 +
        ((groupResidual m X gj).getD ((rngPermOf st X.length).getD i 0) []).getD t 0 := by
  have hXjp_row : (matAdd (groupXjHat m X gj)
        (permuteRows (rngPermOf st X.length) (groupResidual m X gj))).getD i []
      = List.zipWith (· + ·) ((groupXjHat m X gj).getD i [])
          ((permuteRows (rngPermOf st X.length) (groupResidual m X gj)).getD i []) := by
    rw [matAdd]
    exact zipWithRow_getD _ _ _ i (by rw [groupXjHat_length]; exact hi)
      (by rw [permuteRows_length, rngPermOf_length]; exact hi)
  have hperm_row : (permuteRows (rngPermOf st X.length) (groupResidual m X gj)).getD i []
      = (groupResidual m X gj).getD ((rngPermOf st X.length).getD i 0) [] :=
    permuteRows_getD _ _ i (by rw [rngPermOf_length]; exact hi)
  have hσlt : (rngPermOf st X.length).getD i 0 < X.length :=
    rngPermOf_getD_lt st X.length i hi
  have hres_len : ((groupResidual m X gj).getD ((rngPermOf st X.length).getD i 0) []).length
      = gj.length := groupResidual_row_length m X gj _ hσlt
  have hhat_len : ((groupXjHat m X gj).getD i []).length = gj.length :=
    groupXjHat_row_length m X gj i hi
  have hlen2 : t < ((matAdd (groupXjHat m X gj)
      (permuteRows (rngPermOf st X.length) (groupResidual m X gj))).getD i []).length := by
    rw [hXjp_row, List.length_zipWith, hperm_row, hres_len, hhat_len]
    simpa using ht
  show ((xPermMat X gj (matAdd (groupXjHat m X gj)
      (permuteRows (rngPermOf st X.length) (groupResidual m X gj)))).getD i []).getD
        (gj.getD t 0) 0 = _
  rw [xPermMat_group X gj _ i t hi hnd hsub ht hlen2]
  rw [hXjp_row, hperm_row]
  exact zipWithEntry_getD _ _ _ t (by rw [hhat_len]; exact ht) (by rw [hres_len]; exact ht)

/-- C3: in `CPI.predict`, round `r` of group `j` evaluates the estimator on
the perturbed matrix `cpiRoundXPerm`, whose group-`j` columns equal the
imputation model's prediction (reshaped to the group's shape) plus a
row-permutation of the residual `X_j - X_j_hat`; the residual
`groupResidual` is a single per-group value, computed before the rounds, and
the applied row rearrangement is a permutation of the row indices. -/
theorem cpi_predict_perm_structure (s : CPI) (X : Mat) (g : List (List Nat)) (j r : Nat)
    (o : List (List (List ℚ))) (st2 : Nat)
    (hg : s.groups = some g) (hj : j < s.list_imputation_mod.length) (hr : r < s.n_perm)
    (hok : s.predict X = Except.ok (o, st2))
    (hnd : (g.getD j []).Nodup) (hsub : ∀ c ∈ g.getD j [], c < ncols X) :
    (rngPermOf (cpiRoundState s j r) X.length).Perm (List.range X.length) ∧
    (o.getD j []).getD r [] =
      cpiRoundPred s X (g.getD j [])
        (groupXjHat (cpiGroupModel s j) X (g.getD j []))
        (groupResidual (cpiGroupModel s j) X (g.getD j []))
        (cpiRoundState s j r) ∧
    ∀ i t, i < X.length → t < (g.getD j []).length →
      ((cpiRoundXPerm X (g.getD j [])
          (groupXjHat (cpiGroupModel s j) X (g.getD j []))
          (groupResidual (cpiGroupModel s j) X (g.getD j []))
          (cpiRoundState s j r)).getD i []).getD ((g.getD j []).getD t 0) 0
        = ((groupXjHat (cpiGroupModel s j) X (g.getD j [])).getD i []).getD t 0 +
          ((groupResidual (cpiGroupModel s j) X (g.getD j [])).getD
            ((rngPermOf (cpiRoundState s j r) X.length).getD i 0) []).getD t 0 := by
  refine ⟨rngPermOf_perm _ _, predict_entry s X g j r hg hj hr o st2 hok, ?_⟩
  intro i t hi ht
  exact cpiRoundXPerm_group_entry X (g.getD j []) (cpiGroupModel s j)
    (cpiRoundState s j r) i t hi ht hnd hsub

/-- Witness for C3 at the fitted concrete instance (group 0, round 0). -/
theorem cpi_predict_perm_structure_witness :
    (rngPermOf (cpiRoundState wS 0 0) exX.length).Perm (List.range exX.length) ∧
    (((predictLoop wS exX [[0]] wS.list_imputation_mod 0 wS.rng).1.getD 0 []).getD 0 [] =
      cpiRoundPred wS exX ([[0]].getD 0 [])
        (groupXjHat (cpiGroupModel wS 0) exX ([[0]].getD 0 []))
        (groupResidual (cpiGroupModel wS 0) exX ([[0]].getD 0 []))
        (cpiRoundState wS 0 0)) ∧
    ∀ i t, i < exX.length → t < ([[0]].getD 0 []).length →
      ((cpiRoundXPerm exX ([[0]].getD 0 [])
          (groupXjHat (cpiGroupModel wS 0) exX ([[0]].getD 0 []))
          (groupResidual (cpiGroupModel wS 0) exX ([[0]].getD 0 []))
          (cpiRoundState wS 0 0)).getD i []).getD (([[0]].getD 0 []).getD t 0) 0
        = ((groupXjHat (cpiGroupModel wS 0) exX ([[0]].getD 0 [])).getD i []).getD t 0 +
          ((groupResidual (cpiGroupModel wS 0) exX ([[0]].getD 0 [])).getD
            ((rngPermOf (cpiRoundState wS 0 0) exX.length).getD i 0) []).getD t 0 :=
  cpi_predict_perm_structure wS exX [[0]] 0 0 _ _ rfl (by decide) (by decide)
    (predict_ok wS exX [[0]] rfl rfl rfl) (by decide) (by decide)

/-- C4: in every permutation round of `CPI.predict` for group `j`, every
column of the round's perturbed design matrix outside group `j` equals the
corresponding column of the original `X`. -/
theorem cpi_predict_frame (s : CPI) (X : Mat) (g : List (List Nat)) (j r : Nat)
    (o : List (List (List ℚ))) (st2 : Nat)
    (hg : s.groups = some g) (hj : j < s.list_imputation_mod.length) (hr : r < s.n_perm)
    (hok : s.predict X = Except.ok (o, st2)) :
    (o.getD j []).getD r [] =
      cpiRoundPred s X (g.getD j [])
        (groupXjHat (cpiGroupModel s j) X (g.getD j []))
        (groupResidual (cpiGroupModel s j) X (g.getD j []))
        (cpiRoundState s j r) ∧
    ∀ i c, i < X.length → (X.getD i []).length = ncols X → c < ncols X →
      c ∉ g.getD j [] →
      ((cpiRoundXPerm X (g.getD j [])
          (groupXjHat (cpiGroupModel s j) X (g.getD j []))
          (groupResidual (cpiGroupModel s j) X (g.getD j []))
          (cpiRoundState s j r)).getD i []).getD c 0
        = (X.getD i []).getD c 0 := by
  refine ⟨predict_entry s X g j r hg hj hr o st2 hok, ?_⟩
  intro i c hi hrow hc hcg
  show ((xPermMat X (g.getD j []) _).getD i []).getD c 0 = _
  exact xPermMat_frame X (g.getD j []) _ i c hi hrow hc hcg

/-- Witness for C4 at the fitted concrete instance (group 0, round 0). -/
theorem cpi_predict_frame_witness :
    (((predictLoop wS exX [[0]] wS.list_imputation_mod 0 wS.rng).1.getD 0 []).getD 0 [] =
      cpiRoundPred wS exX ([[0]].getD 0 [])
        (groupXjHat (cpiGroupModel wS 0) exX ([[0]].getD 0 []))
        (groupResidual (cpiGroupModel wS 0) exX ([[0]].getD 0 []))
        (cpiRoundState wS 0 0)) ∧
    ∀ i c, i < exX.length → (exX.getD i []).length = ncols exX → c < ncols exX →
      c ∉ [[0]].getD 0 [] →
      ((cpiRoundXPerm exX ([[0]].getD 0 [])
          (groupXjHat (cpiGroupModel wS 0) exX ([[0]].getD 0 []))
          (groupResidual (cpiGroupModel wS 0) exX ([[0]].getD 0 []))
          (cpiRoundState wS 0 0)).getD i []).getD c 0
        = (exX.getD i []).getD c 0 :=
  cpi_predict_frame wS exX [[0]] 0 0 _ _ rfl (by decide) (by decide)
    (predict_ok wS exX [[0]] rfl rfl rfl)

/-- C1: on a fitted instance, `score` returns a dict whose `loss_reference`
is the loss between `y` and the estimator's output on the unmodified `X`,
and whose `importance` entry `j` is the mean of the `n_perm` permuted-data
losses of group `j` minus that reference loss, for every group `j`. -/
theorem cpi_score_importance (s : CPI) (X : Mat) (y : List ℚ) (g : List (List Nat))
    (nb : Nat) (hest : s.estimator.fitted = true)
    (hne : s.list_imputation_mod.isEmpty = false)
    (hall : s.list_imputation_mod.all (fun m => m.fitted) = true)
    (hg : s.groups = some g) (hnb : s.nb_groups = some nb)
    (hlen : s.list_imputation_mod.length = nb)
    (o : List (List (List ℚ))) (st2 : Nat) (hok : s.predict X = Except.ok (o, st2)) :
    ∃ d, s.score X y = Except.ok d ∧
      d.loss_reference =
        s.loss y
          (if s.score_proba then s.estimator.predictProba X else s.estimator.predict X) ∧
      d.loss_perm = o.map (fun yj => yj.map (fun yp => s.loss y yp)) ∧
      d.importance.length = nb ∧
      ∀ j, j < nb →
        (o.getD j []).length = s.n_perm ∧
        d.importance.getD j 0 =
          npMean ((o.getD j []).map (fun yp => s.loss y yp)) - d.loss_reference := by
  have ho : o = (predictLoop s X g s.list_imputation_mod 0 s.rng).1 := by
    obtain ⟨g0, hg0, h⟩ := predict_ok_elim s X o st2 hok
    have hgg : g0 = g := by rw [hg] at hg0; injection hg0 with hh; rw [hh]
    rw [h, hgg]
  have holen : o.length = nb := by rw [ho, predictLoop_fst_length, hlen]
  refine ⟨_, score_ok s X y g nb hest hne hall hg hnb, rfl, ?_, ?_, ?_⟩
  · show (predictLoop s X g s.list_imputation_mod 0 s.rng).1.map
        (fun yj => yj.map (fun ypj => s.loss y ypj)) = _
    rw [ho]
  · show ((List.range nb).map _).length = nb
    simp
  · intro j hj
    have hj2 : j < s.list_imputation_mod.length := by rw [hlen]; exact hj
    constructor
    · rw [ho, predictLoop_getD s X g _ j 0 s.rng hj2, joblib_predict_one_gp,
        cpiRounds_fst_length]
    · show ((List.range nb).map
          (fun j =>
            npMean
              (((predictLoop s X g s.list_imputation_mod 0 s.rng).1.map
                  (fun yj => yj.map (fun ypj => s.loss y ypj))).getD j []) -
            s.loss y
              (if s.score_proba then s.estimator.predictProba X
               else s.estimator.predict X))).getD j 0 = _
      rw [List.getD_eq_getElem?_getD, List.getElem?_map, List.getElem?_range hj]
      have hjo : j < o.length := by rw [holen]; exact hj
      show npMean
          (((predictLoop s X g s.list_imputation_mod 0 s.rng).1.map
              (fun yj => yj.map (fun ypj => s.loss y ypj))).getD j []) - _ = _
      rw [← ho]
      rw [List.getD_eq_getElem?_getD, List.getElem?_map, List.getElem?_eq_getElem hjo]
      rw [List.getD_eq_getElem?_getD o j [], List.getElem?_eq_getElem hjo]
      rfl

/-- Witness for C1 at the fitted concrete instance. -/
theorem cpi_score_importance_witness :
    ∃ d, wS.score exX exY = Except.ok d ∧
      d.loss_reference =
        wS.loss exY
          (if wS.score_proba then wS.estimator.predictProba exX
           else wS.estimator.predict exX) ∧
      d.loss_perm =
        (predictLoop wS exX [[0]] wS.list_imputation_mod 0 wS.rng).1.map
          (fun yj => yj.map (fun yp => wS.loss exY yp)) ∧
      d.importance.length = 1 ∧
      ∀ j, j < 1 →
        ((predictLoop wS exX [[0]] wS.list_imputation_mod 0 wS.rng).1.getD j []).length
          = wS.n_perm ∧
        d.importance.getD j 0 =
          npMean
            (((predictLoop wS exX [[0]] wS.list_imputation_mod 0 wS.rng).1.getD j []).map
              (fun yp => wS.loss exY yp)) - d.loss_reference :=
  cpi_score_importance wS exX exY [[0]] 1 rfl rfl rfl rfl rfl rfl _ _
    (predict_ok wS exX [[0]] rfl rfl rfl)
